import Mathlib

/-
  Verification development for the fido2-hmac-deriver repository.

  The Go package internal/crypto (hmac.go) is embedded shallowly:
  - bytes are Nat (each < 256 where it matters; arithmetic stays in Nat),
  - the SHA-256 primitive from the Go standard library is modelled as an
    abstract 32-byte hash function (a field of the structure Hash32),
  - the libfido2 transport (device open, MakeCredential, Assertion) and the
    file system (os.ReadDir, os.ReadFile, os.WriteFile) are modelled as
    explicit parameters of the orchestration function, and
  - the orchestration DeriveHMACSecret returns a trace recording, besides
    its result, whether MakeCredential was invoked, every assertion request
    issued, and whether a save failure was downgraded to a warning.
-/

namespace Fido2

/-! ## Base64 (Go encoding/base64 StdEncoding) -/

/-- The standard base64 alphabet used by Go's base64.StdEncoding. -/
def b64Alphabet : List Char :=
  "ABCDEFGHIJKLMNOPQRSTUVWXYZabcdefghijklmnopqrstuvwxyz0123456789+/".toList

/-- The base64 digit for a 6-bit value. -/
def b64Char (n : Nat) : Char := b64Alphabet.getD n 'A'

/-- The 6-bit value of a base64 digit, none for a character outside the
alphabet. -/
def b64Val (c : Char) : Option Nat := b64Alphabet.findIdx? (fun d => d = c)

/-- Base64 encoding of a byte list, as done by
base64.StdEncoding.EncodeToString (with padding). -/
def base64EncodeChars : List Nat → List Char
  | [] => []
  | [b0] => [b64Char (b0 / 4), b64Char (b0 % 4 * 16), '=', '=']
  | [b0, b1] =>
      [b64Char (b0 / 4), b64Char (b0 % 4 * 16 + b1 / 16), b64Char (b1 % 16 * 4), '=']
  | b0 :: b1 :: b2 :: rest =>
      b64Char (b0 / 4) :: b64Char (b0 % 4 * 16 + b1 / 16) ::
      b64Char (b1 % 16 * 4 + b2 / 64) :: b64Char (b2 % 64) :: base64EncodeChars rest

def base64Encode (bs : List Nat) : String := String.mk (base64EncodeChars bs)

/-- Base64 decoding of a character list, as done by
base64.StdEncoding.DecodeString: the input length must be a multiple of
four, every character must be an alphabet digit, and padding may occur
only at the very end (one or two characters). Returns none on corrupt
input. -/
def base64DecodeChars : List Char → Option (List Nat)
  | [] => some []
  | c0 :: c1 :: c2 :: c3 :: rest =>
      match b64Val c0, b64Val c1 with
      | some v0, some v1 =>
          if c2 = '=' then
            if c3 = '=' ∧ rest = [] then some [v0 * 4 + v1 / 16] else none
          else
            match b64Val c2 with
            | some v2 =>
                if c3 = '=' then
                  if rest = [] then some [v0 * 4 + v1 / 16, v1 % 16 * 16 + v2 / 4]
                  else none
                else
                  match b64Val c3 with
                  | some v3 =>
                      (base64DecodeChars rest).map
                        (fun t => (v0 * 4 + v1 / 16) :: (v1 % 16 * 16 + v2 / 4) ::
                                  (v2 % 4 * 64 + v3) :: t)
                  | none => none
            | none => none
      | _, _ => none
  | _ => none

def base64Decode (s : String) : Option (List Nat) := base64DecodeChars s.toList

/-! ## Credential store (getCredentialFilename, saveCredentialID,
loadCredentialID from hmac.go) -/

/-- strings.ReplaceAll for a single-character pattern and replacement. -/
def replaceAllChar (s : String) (a b : Char) : String :=
  String.mk (s.toList.map fun c => if c = a then b else c)

/-- getCredentialFilename: first 16 characters of the base64 encoding of
the credential id, with '/' replaced by '_' and '+' by '-', plus the
".cred" suffix. -/
def getCredentialFilename (credentialID : List Nat) : String :=
  let base64Cred := base64Encode credentialID
  let base64Cred :=
    if 16 < base64Cred.toList.length then String.mk (base64Cred.toList.take 16)
    else base64Cred
  let filename := replaceAllChar base64Cred '/' '_'
  let filename := replaceAllChar filename '+' '-'
  filename ++ ".cred"

/-- A single file write: name, full content, unix permission bits
(os.WriteFile's perm argument). -/
structure FileWrite where
  name : String
  content : String
  perm : Nat
deriving DecidableEq

/-- The one file write performed by saveCredentialID: the computed
filename, the base64 encoding of the credential id as full content,
permission bits 0644 as passed to os.WriteFile. -/
def saveWrite (credentialID : List Nat) : FileWrite :=
  { name := getCredentialFilename credentialID
    content := base64Encode credentialID
    perm := 0o644 }

/-- Effect of os.WriteFile on a file system (a map from names to
contents): the named file is created or truncated to the new content;
every other file is untouched. -/
def applyWrite (fs : String → Option String) (w : FileWrite) : String → Option String :=
  fun n => if n = w.name then some w.content else fs n

/-- strings.HasSuffix, over the character lists of the two strings (the
suffix tested in the source, ".cred", is ASCII, for which character and
byte suffixes agree). -/
def hasSuffix (s suf : String) : Bool :=
  decide (suf.toList = s.toList.drop (s.toList.length - suf.toList.length))

/-- A directory entry as seen by loadCredentialID: its name, and the
result of os.ReadFile on it (none models a read error). -/
structure DirEntry where
  name : String
  read : Option String

/-- The two failure kinds of loadCredentialID, distinguished in the source
by their messages: ioFailed is "failed to read current directory" (the
os.ReadDir failure), notFound is "no existing credential found". -/
inductive LoadErr
  | ioFailed
  | notFound
deriving DecidableEq

/-- The scan loop of loadCredentialID: first entry whose name ends in
".cred", whose read succeeds and whose content base64-decodes wins;
entries failing any of these are skipped. -/
def loadCredentialList : List DirEntry → Except LoadErr (List Nat)
  | [] => .error .notFound
  | file :: rest =>
      if hasSuffix file.name ".cred" then
        match file.read with
        | none => loadCredentialList rest
        | some data =>
            match base64Decode data with
            | none => loadCredentialList rest
            | some credentialID => .ok credentialID
      else loadCredentialList rest

/-- loadCredentialID: on an os.ReadDir failure, fail with the IO error;
otherwise scan the listed entries. -/
def loadCredentialID (dir : Except Unit (List DirEntry)) : Except LoadErr (List Nat) :=
  match dir with
  | .error _ => .error .ioFailed
  | .ok files => loadCredentialList files

/-! ## Salt deriver (generateDeterministicSalt from hmac.go) -/

/-- The 32-byte hash primitive (sha256.Sum256 from the Go standard
library, external to this repository): an arbitrary function from byte
lists to byte lists whose output always has exactly 32 bytes, which is
all the repository's code relies on. -/
structure Hash32 where
  f : List Nat → List Nat
  len : ∀ bs, (f bs).length = 32

/-- The UTF-8 bytes of a string (Go's []byte conversion). -/
def strBytes (s : String) : List Nat := s.toUTF8.toList.map (fun b => b.toNat)

/-- The extension loop of generateDeterministicSalt for sizes above 32:
while the salt is shorter than requested, hash "saltInput:counter",
append the whole 32-byte block when at least 32 bytes are missing and
only the missing bytes otherwise, then increment the counter. -/
def saltLoop (h : Hash32) (saltInput : String) (size : Nat) (counter : Nat)
    (salt : List Nat) : List Nat :=
  if _hlt : salt.length < size then
    let counterHash := h.f (strBytes (saltInput ++ ":" ++ toString counter))
    let remaining := size - salt.length
    saltLoop h saltInput size (counter + 1)
      (if 32 ≤ remaining then salt ++ counterHash else salt ++ counterHash.take remaining)
  else salt
termination_by size - salt.length
decreasing_by
  have h32 : counterHash.length = 32 := h.len _
  split
  · simp only [List.length_append, h32]
    omega
  · simp only [List.length_append, List.length_take, h32, remaining]
    omega

/-- generateDeterministicSalt: hash "path:rpID"; for size at most 32
return the first size bytes, otherwise run the extension loop. The Go
function returns a nil error on every path, kept as the Except layer
here. -/
def saltBytes (h : Hash32) (size : Nat) (path rpID : String) : List Nat :=
  let saltInput := path ++ ":" ++ rpID
  let hash := h.f (strBytes saltInput)
  if size ≤ 32 then hash.take size
  else saltLoop h saltInput size 0 []

def generateDeterministicSalt (h : Hash32) (size : Nat) (path rpID : String) :
    Except Unit (List Nat) :=
  .ok (saltBytes h size path rpID)

/-- Concatenation of the hash blocks for counters counter, counter+1, …,
counter+k-1, as the spec describes the size > 32 case. -/
def joinBlocksFrom (h : Hash32) (saltInput : String) (counter k : Nat) : List Nat :=
  ((List.range k).map fun i => h.f (strBytes (saltInput ++ ":" ++ toString (counter + i)))).flatten

/-- The salt value exactly as the spec words it: the first n bytes of
hash("path:rpID") when n ≤ 32, and otherwise the first n bytes of
hash("path:rpID:0") ++ hash("path:rpID:1") ++ … with the final block
truncated (⌈n/32⌉ blocks suffice). -/
def saltSpec (h : Hash32) (path rpID : String) (n : Nat) : List Nat :=
  let base := path ++ ":" ++ rpID
  if n ≤ 32 then (h.f (strBytes base)).take n
  else (joinBlocksFrom h base 0 ((n + 31) / 32)).take n

/-! ## Configuration (types.Configuration and ValidateConfiguration) -/

/-- types.Configuration. saltSize is a Go int, modelled as Int. -/
structure Configuration where
  relyingPartyID : String
  relyingPartyName : String
  userID : List Nat
  userName : String
  userDisplayName : String
  saltSize : Int

/-- ValidateConfiguration from hmac.go, with the source's error messages
and check order (the nil-pointer check has no counterpart for a Lean
value). -/
def ValidateConfiguration (config : Configuration) : Except String Unit :=
  if config.relyingPartyID = "" then
    .error "relying party ID cannot be empty"
  else if config.relyingPartyName = "" then
    .error "relying party name cannot be empty"
  else if config.userID.length = 0 then
    .error "user ID cannot be empty"
  else if config.userName = "" then
    .error "user name cannot be empty"
  else if config.saltSize ≤ 0 then
    .error "salt size must be positive"
  else if config.saltSize < 16 then
    .error "salt size should be at least 16 bytes for security"
  else
    .ok ()

/-! ## Authenticator transport model (libfido2 calls made by hmac.go) -/

/-- types.DeviceInfo: only the fields the crypto package consumes. -/
structure DeviceInfo where
  path : String
  name : String
  manufacturer : String

/-- The one libfido2 extension the code requests. -/
inductive Ext
  | hmacSecretExt
deriving DecidableEq

/-- The one signature algorithm the code requests (libfido2.ES256). -/
inductive Alg
  | es256
deriving DecidableEq

structure RelyingParty where
  id : String
  name : String
deriving DecidableEq

structure UserEntity where
  id : List Nat
  name : String
  displayName : String
deriving DecidableEq

/-- The full argument tuple of dev.MakeCredential as called by
createCredential. -/
structure MakeCredentialRequest where
  clientDataHash : List Nat
  rp : RelyingParty
  user : UserEntity
  alg : Alg
  pin : String
  extensions : List Ext
  rk : Bool
deriving DecidableEq

/-- The attestation returned by MakeCredential: only the credential id is
consumed by the code. -/
structure Attestation where
  credentialID : List Nat
deriving DecidableEq

/-- The full argument tuple of dev.Assertion as called by deriveSecret. -/
structure AssertionRequest where
  rpID : String
  clientDataHash : List Nat
  credentialIDs : List (List Nat)
  pin : String
  extensions : List Ext
  hmacSalt : List Nat
  up : Bool
deriving DecidableEq

/-- The assertion returned by dev.Assertion: only HMACSecret is consumed
by the code. -/
structure Assertion where
  hmacSecret : List Nat
deriving DecidableEq

/-- The outside world as hmac.go touches it: device open, directory
listing, credential creation, file write, assertion. Each is an
arbitrary function, standing for one external call. -/
structure World where
  connect : Except Unit Unit
  entries : Except Unit (List DirEntry)
  makeCredential : MakeCredentialRequest → Except Unit Attestation
  writeFile : FileWrite → Except Unit Unit
  assert : AssertionRequest → Except Unit Assertion

/-! ## Secret deriver (createCredential, deriveSecret, DeriveHMACSecret) -/

/-- The MakeCredential request built by createCredential: client data
hash = hash("fido2-hmac-credential:" ++ relyingPartyID), relying party
and user descriptors from the configuration, ES256, the caller's pin,
the HMAC-secret extension, resident key true. -/
def makeCredentialRequestFor (h : Hash32) (pin : String) (config : Configuration) :
    MakeCredentialRequest :=
  { clientDataHash := h.f (strBytes ("fido2-hmac-credential:" ++ config.relyingPartyID))
    rp := { id := config.relyingPartyID, name := config.relyingPartyName }
    user := { id := config.userID, name := config.userName
              displayName := config.userDisplayName }
    alg := .es256
    pin := pin
    extensions := [.hmacSecretExt]
    rk := true }

/-- The Assertion request built by deriveSecret: relying-party id from
the configuration, client data hash = hash(salt), the single-element
credential list, the caller's pin, the HMAC-secret extension with the
salt, user presence required. -/
def assertionRequestFor (h : Hash32) (credentialID salt : List Nat) (pin : String)
    (config : Configuration) : AssertionRequest :=
  { rpID := config.relyingPartyID
    clientDataHash := h.f salt
    credentialIDs := [credentialID]
    pin := pin
    extensions := [.hmacSecretExt]
    hmacSalt := salt
    up := true }

/-- The two failure kinds of deriveSecret: the transport error, and the
empty-HMAC-secret rejection. -/
inductive DeriveErr
  | assertionFailed
  | emptySecretReturned
deriving DecidableEq

/-- deriveSecret: issue the assertion request; on transport failure fail
with assertionFailed; on success require a non-empty HMACSecret and
return it verbatim. -/
def deriveSecret (h : Hash32) (assert : AssertionRequest → Except Unit Assertion)
    (credentialID salt : List Nat) (pin : String) (config : Configuration) :
    Except DeriveErr (List Nat) :=
  match assert (assertionRequestFor h credentialID salt pin config) with
  | .error _ => .error .assertionFailed
  | .ok assertion =>
      if assertion.hmacSecret.length = 0 then .error .emptySecretReturned
      else .ok assertion.hmacSecret

/-- The failure kinds of DeriveHMACSecret, one per early return of the Go
function (saltFailed mirrors the dead error branch after
generateDeterministicSalt, which never fails). -/
inductive AppErr
  | connectFailed
  | saltFailed
  | createFailed
  | deriveFailed (e : DeriveErr)
deriving DecidableEq

/-- types.HMACResult, without the wall-clock Timestamp field (real time
is outside the embedding). -/
structure HMACResult where
  secret : List Nat
  salt : List Nat
  credentialID : List Nat
  device : DeviceInfo
  relyingParty : String

/-- The observable outcome of one DeriveHMACSecret invocation: its
result, whether MakeCredential was invoked, every assertion request
issued, and whether a failed save was downgraded to a warning. -/
structure DeriveTrace where
  result : Except AppErr HMACResult
  madeCredential : Bool
  assertionRequests : List AssertionRequest
  saveWarning : Bool

/-- Steps 4 and 5 of DeriveHMACSecret, after the credential id has been
resolved: derive the secret and assemble the result. -/
def deriveStep45 (h : Hash32) (w : World) (device : DeviceInfo) (pin : String)
    (config : Configuration) (salt credentialID : List Nat)
    (made warn : Bool) : DeriveTrace :=
  match deriveSecret h w.assert credentialID salt pin config with
  | .error e => { result := .error (.deriveFailed e), madeCredential := made
                  assertionRequests := [assertionRequestFor h credentialID salt pin config]
                  saveWarning := warn }
  | .ok secret =>
      { result := .ok { secret := secret, salt := salt, credentialID := credentialID
                        device := device, relyingParty := config.relyingPartyID }
        madeCredential := made
        assertionRequests := [assertionRequestFor h credentialID salt pin config]
        saveWarning := warn }

/-- DeriveHMACSecret: connect, generate the deterministic salt, load an
existing credential id or create (and best-effort save) a new one, then
derive. Any loadCredentialID error — not only NotFound — sends the code
down the creation path; a save failure is only displayed, not
propagated. -/
def DeriveHMACSecret (h : Hash32) (w : World) (device : DeviceInfo) (pin : String)
    (config : Configuration) : DeriveTrace :=
  match w.connect with
  | .error _ => { result := .error .connectFailed, madeCredential := false
                  assertionRequests := [], saveWarning := false }
  | .ok _ =>
      match generateDeterministicSalt h config.saltSize.toNat device.path
              config.relyingPartyID with
      | .error _ => { result := .error .saltFailed, madeCredential := false
                      assertionRequests := [], saveWarning := false }
      | .ok salt =>
          match loadCredentialID w.entries with
          | .error _ =>
              match w.makeCredential (makeCredentialRequestFor h pin config) with
              | .error _ =>
                  { result := .error .createFailed, madeCredential := true
                    assertionRequests := [], saveWarning := false }
              | .ok attestation =>
                  let credentialID := attestation.credentialID
                  let warn := match w.writeFile (saveWrite credentialID) with
                    | .error _ => true
                    | .ok _ => false
                  deriveStep45 h w device pin config salt credentialID true warn
          | .ok existingCredentialID =>
              deriveStep45 h w device pin config salt existingCredentialID false false

/-! ## Concrete instances used by witnesses -/

/-- A concrete 32-byte hash usable to instantiate the abstract primitive
in closed statements. -/
def testHash : Hash32 :=
  { f := fun _ => List.range 32
    len := fun _ => List.length_range 32 }

/-! ## Spec-side definitions (worded from spec.md, for comparison with
the source-side definitions) -/

/-- sanitize as the spec words it: map every '/' to '_' and every '+'
to '-'. -/
def sanitizeSpec (s : String) : String :=
  String.mk (s.toList.map fun c => if c = '/' then '_' else if c = '+' then '-' else c)

/-- The record filename as the spec words it:
sanitize(base64(credentialID)[0:16]) ++ ".cred". -/
def filenameSpec (credentialID : List Nat) : String :=
  sanitizeSpec (String.mk ((base64Encode credentialID).toList.take 16)) ++ ".cred"

/-- The first record the spec's load() description selects: first entry
whose name ends in ".cred", whose content reads and base64-decodes. -/
def firstCredRecord (files : List DirEntry) : Option (List Nat) :=
  files.findSome? fun f =>
    if hasSuffix f.name ".cred" then f.read.bind (fun data => base64Decode data)
    else none

/-! ## Credential store theorems -/

lemma replaceAllChar_pair (s : String) :
    replaceAllChar (replaceAllChar s '/' '_') '+' '-' = sanitizeSpec s := by
  unfold replaceAllChar sanitizeSpec
  show String.mk ((s.toList.map _).map _) = _
  rw [List.map_map]
  congr 1
  apply List.map_congr_left
  intro c _
  simp only [Function.comp]
  by_cases h1 : c = '/'
  · simp [h1]
  · by_cases h2 : c = '+' <;> simp [h1, h2]

lemma getCredentialFilename_eq (credentialID : List Nat) :
    getCredentialFilename credentialID = filenameSpec credentialID := by
  unfold getCredentialFilename filenameSpec
  by_cases hlen : 16 < (base64Encode credentialID).toList.length
  · simp only [hlen, if_true, replaceAllChar_pair]
  · simp only [hlen, if_false, replaceAllChar_pair]
    rw [List.take_of_length_le (by omega)]
    rfl

/-- C6: saveCredentialID writes exactly one file, named
sanitize(base64(id)[0:16]) ++ ".cred", whose full content is
base64(id), overwriting any existing file of that name and leaving
every other file untouched. -/
theorem save_writes_single_record (credentialID : List Nat)
    (fs : String → Option String) (other : String)
    (hother : other ≠ filenameSpec credentialID) :
    (saveWrite credentialID).name = filenameSpec credentialID ∧
    (saveWrite credentialID).content = base64Encode credentialID ∧
    applyWrite fs (saveWrite credentialID) (filenameSpec credentialID) =
      some (base64Encode credentialID) ∧
    applyWrite fs (saveWrite credentialID) other = fs other := by
  refine ⟨getCredentialFilename_eq _, rfl, ?_, ?_⟩
  · simp [applyWrite, saveWrite, getCredentialFilename_eq]
  · simp [applyWrite, saveWrite, getCredentialFilename_eq, hother]

theorem save_writes_single_record_witness :
    "x" ≠ filenameSpec [255, 255, 255] ∧
    ((saveWrite [255, 255, 255]).name = filenameSpec [255, 255, 255] ∧
     (saveWrite [255, 255, 255]).content = base64Encode [255, 255, 255] ∧
     applyWrite (fun _ => none) (saveWrite [255, 255, 255])
         (filenameSpec [255, 255, 255]) = some (base64Encode [255, 255, 255]) ∧
     applyWrite (fun _ => none) (saveWrite [255, 255, 255]) "x" = none) :=
  ⟨by decide, save_writes_single_record [255, 255, 255] (fun _ => none) "x" (by decide)⟩

/-! ## Configuration validation theorems -/

/-- A configuration that is fully populated except for an empty
userDisplayName. -/
def displayLessConfig : Configuration :=
  { relyingPartyID := "example-rp"
    relyingPartyName := "Example RP"
    userID := [1]
    userName := "user"
    userDisplayName := ""
    saltSize := 32 }

/-- C7 counterexample: ValidateConfiguration accepts a configuration
whose userDisplayName is empty, so an empty userDisplayName does not
make it return an error. -/
theorem validate_accepts_empty_displayName :
    displayLessConfig.userDisplayName = "" ∧
    ValidateConfiguration displayLessConfig = .ok () :=
  ⟨rfl, rfl⟩

/-- C7 (amended): ValidateConfiguration returns an error iff
relyingPartyID, relyingPartyName, userID or userName is empty, or
saltSize < 16 (which subsumes saltSize ≤ 0); userDisplayName is not
checked. -/
theorem validate_error_iff (c : Configuration) :
    (∃ e, ValidateConfiguration c = .error e) ↔
      (c.relyingPartyID = "" ∨ c.relyingPartyName = "" ∨ c.userID = [] ∨
       c.userName = "" ∨ c.saltSize < 16) := by
  unfold ValidateConfiguration
  split_ifs with h1 h2 h3 h4 h5 h6
  all_goals simp_all [List.length_eq_zero]
  all_goals omega

/-! ## Permission theorems -/

/-- C9 counterexample: the credential file is written with permission
bits 0644, not the owner-only 0600 the claim states. -/
theorem save_perm_not_owner_only : (saveWrite [1, 2, 3]).perm ≠ 0o600 := by
  decide

/-- C9 (amended): every credential-record write passes permission bits
0644 (owner read/write, group read, others read) to os.WriteFile. -/
theorem save_perm_is_0644 (credentialID : List Nat) :
    (saveWrite credentialID).perm = 0o644 := rfl

/-! ## Load scan theorems -/

lemma loadCredentialList_eq (files : List DirEntry) :
    loadCredentialList files =
      (firstCredRecord files).elim (Except.error LoadErr.notFound) Except.ok := by
  induction files with
  | nil => rfl
  | cons f rest ih =>
      simp only [firstCredRecord] at ih ⊢
      rw [List.findSome?_cons]
      unfold loadCredentialList
      by_cases hsuf : hasSuffix f.name ".cred"
      · simp only [hsuf, if_true]
        cases hr : f.read with
        | none => simpa using ih
        | some data =>
            cases hd : base64Decode data with
            | none => simpa [hd] using ih
            | some id => simp [hd]
      · simp only [hsuf, if_false]
        simpa using ih

/-- C3: loadCredentialID fails with the fatal IO error exactly when the
directory listing itself fails; on a successful listing it returns the
base64-decoding of the first ".cred"-suffixed entry that reads and
decodes (skipping entries that do not), and fails with NotFound exactly
when there is no such entry. -/
theorem load_first_matching_record :
    (∀ e : Unit, loadCredentialID (.error e) = .error .ioFailed) ∧
    (∀ files : List DirEntry,
        loadCredentialID (.ok files) =
          (firstCredRecord files).elim (Except.error LoadErr.notFound) Except.ok) :=
  ⟨fun _ => rfl, fun files => loadCredentialList_eq files⟩

/-! ## Salt deriver theorems -/

lemma joinBlocksFrom_succ (h : Hash32) (s : String) (c k : Nat) :
    joinBlocksFrom h s c (k + 1) =
      h.f (strBytes (s ++ ":" ++ toString c)) ++ joinBlocksFrom h s (c + 1) k := by
  unfold joinBlocksFrom
  rw [List.range_succ_eq_map, List.map_cons, List.flatten_cons, List.map_map,
      Nat.add_zero]
  congr 1
  congr 1
  apply List.map_congr_left
  intro i _
  simp only [Function.comp_apply, Nat.succ_eq_add_one]
  have hi : c + (i + 1) = c + 1 + i := by omega
  rw [hi]

lemma joinBlocksFrom_length (h : Hash32) (s : String) (c k : Nat) :
    (joinBlocksFrom h s c k).length = 32 * k := by
  induction k generalizing c with
  | zero => rfl
  | succ k ih =>
      rw [joinBlocksFrom_succ, List.length_append, h.len, ih]
      omega

lemma saltLoop_eq_blocks (h : Hash32) (s : String) (size : Nat) :
    ∀ rem counter salt, salt.length + rem = size →
      saltLoop h s size counter salt =
        salt ++ (joinBlocksFrom h s counter ((rem + 31) / 32)).take rem := by
  intro rem
  induction rem using Nat.strong_induction_on with
  | _ rem ih =>
    intro counter salt hlen
    rw [saltLoop]
    by_cases hlt : salt.length < size
    · rw [dif_pos hlt]
      have hrem : size - salt.length = rem := by omega
      simp only [hrem]
      by_cases h32 : 32 ≤ rem
      · rw [if_pos h32]
        rw [ih (rem - 32) (by omega) (counter + 1)
              (salt ++ h.f (strBytes (s ++ ":" ++ toString counter)))
              (by simp only [List.length_append, h.len]; omega)]
        have hk : (rem + 31) / 32 = (rem - 32 + 31) / 32 + 1 := by omega
        rw [hk, joinBlocksFrom_succ, List.append_assoc]
        congr 1
        rw [List.take_append_eq_append_take,
            @List.take_of_length_le _ rem (h.f (strBytes (s ++ ":" ++ toString counter)))
              (by rw [h.len]; exact h32),
            h.len]
      · rw [if_neg h32]
        rw [ih 0 (by omega) (counter + 1)
              (salt ++ (h.f (strBytes (s ++ ":" ++ toString counter))).take rem)
              (by simp only [List.length_append, List.length_take, h.len]; omega)]
        have hk : (rem + 31) / 32 = 1 := by omega
        rw [hk, joinBlocksFrom_succ]
        simp [joinBlocksFrom]
    · rw [dif_neg hlt]
      have h0 : rem = 0 := by omega
      subst h0
      simp

/-- C1: for every 32-byte hash primitive, device path, relying-party id
and requested length n > 0, generateDeterministicSalt returns, with no
error, exactly the salt the spec describes (first n bytes of
hash("path:rpID") for n ≤ 32, the truncated block concatenation for
n > 32), and that salt has exactly n bytes. -/
theorem salt_deriver_correct (h : Hash32) (path rpID : String) (n : Nat)
    (hn : 0 < n) :
    generateDeterministicSalt h n path rpID = .ok (saltSpec h path rpID n) ∧
    (saltSpec h path rpID n).length = n := by
  have hval : saltBytes h n path rpID = saltSpec h path rpID n := by
    unfold saltBytes saltSpec
    by_cases hle : n ≤ 32
    · simp [hle]
    · simp only [hle, if_false]
      have := saltLoop_eq_blocks h (path ++ ":" ++ rpID) n n 0 [] (by simp)
      simpa using this
  refine ⟨by unfold generateDeterministicSalt; rw [hval], ?_⟩
  unfold saltSpec
  by_cases hle : n ≤ 32
  · simp only [hle, if_true, List.length_take, h.len]
    omega
  · have hb : n ≤ 32 * ((n + 31) / 32) := by omega
    simp only [hle, if_false, List.length_take, joinBlocksFrom_length]
    omega

theorem salt_deriver_correct_witness :
    0 < 32 ∧
    (generateDeterministicSalt testHash 32 "/dev/hidraw10" "e2e-git" =
        .ok (saltSpec testHash "/dev/hidraw10" "e2e-git" 32) ∧
      (saltSpec testHash "/dev/hidraw10" "e2e-git" 32).length = 32) :=
  ⟨by decide, salt_deriver_correct testHash "/dev/hidraw10" "e2e-git" 32 (by decide)⟩

/-! ## Orchestration theorems -/

lemma reusePathFacts (h : Hash32) (w : World) (device : DeviceInfo) (pin : String)
    (config : Configuration) (id : List Nat)
    (hload : loadCredentialID w.entries = .ok id) :
    (DeriveHMACSecret h w device pin config).madeCredential = false ∧
    (∀ r ∈ (DeriveHMACSecret h w device pin config).assertionRequests,
        r.credentialIDs = [id]) ∧
    (∀ res, (DeriveHMACSecret h w device pin config).result = .ok res →
        res.credentialID = id) := by
  unfold DeriveHMACSecret
  cases hc : w.connect with
  | error e => simp
  | ok u =>
      simp only [generateDeterministicSalt, hload]
      unfold deriveStep45
      cases hd : deriveSecret h w.assert id
          (saltBytes h config.saltSize.toNat device.path config.relyingPartyID)
          pin config with
      | error e => simp [assertionRequestFor]
      | ok secret =>
          refine ⟨rfl, ?_, ?_⟩
          · intro r hr
            simp only [List.mem_singleton] at hr
            subst hr
            rfl
          · intro res hres
            simp only [Except.ok.injEq] at hres
            subst hres
            rfl

/-- C2: whenever loadCredentialID succeeds with an id, DeriveHMACSecret
never invokes MakeCredential, every assertion request carries exactly
that id, and a successful result carries it unchanged. -/
theorem reuse_never_creates (h : Hash32) (w : World) (device : DeviceInfo)
    (pin : String) (config : Configuration) (id : List Nat)
    (hload : loadCredentialID w.entries = .ok id) :
    (DeriveHMACSecret h w device pin config).madeCredential = false ∧
    (∀ r ∈ (DeriveHMACSecret h w device pin config).assertionRequests,
        r.credentialIDs = [id]) ∧
    (∀ res, (DeriveHMACSecret h w device pin config).result = .ok res →
        res.credentialID = id) :=
  reusePathFacts h w device pin config id hload

/-- A fully populated valid configuration for closed statements. -/
def testConfig : Configuration :=
  { relyingPartyID := "e2e-git"
    relyingPartyName := "rp"
    userID := [1]
    userName := "u"
    userDisplayName := "d"
    saltSize := 32 }

def testDevice : DeviceInfo :=
  { path := "/dev/hidraw10", name := "key", manufacturer := "vendor" }

/-- A world holding one stored credential record ("AAAA" decodes to
three zero bytes). -/
def reuseWorld : World :=
  { connect := .ok ()
    entries := .ok [{ name := "b.cred", read := some "AAAA" }]
    makeCredential := fun _ => .error ()
    writeFile := fun _ => .ok ()
    assert := fun _ => .ok { hmacSecret := [1] } }

theorem reuse_never_creates_witness :
    loadCredentialID reuseWorld.entries = .ok [0, 0, 0] ∧
    ((DeriveHMACSecret testHash reuseWorld testDevice "1234" testConfig).madeCredential
        = false ∧
     (∀ r ∈ (DeriveHMACSecret testHash reuseWorld testDevice "1234"
          testConfig).assertionRequests, r.credentialIDs = [[0, 0, 0]]) ∧
     (∀ res, (DeriveHMACSecret testHash reuseWorld testDevice "1234"
          testConfig).result = .ok res → res.credentialID = [0, 0, 0])) :=
  ⟨rfl, reuse_never_creates testHash reuseWorld testDevice "1234" testConfig
    [0, 0, 0] rfl⟩

lemma loadList_append_skip (pre rest : List DirEntry)
    (hpre : ∀ f ∈ pre, hasSuffix f.name ".cred" = false) :
    loadCredentialList (pre ++ rest) = loadCredentialList rest := by
  induction pre with
  | nil => rfl
  | cons f pre ih =>
      have hf : hasSuffix f.name ".cred" = false := hpre f (List.mem_cons_self f pre)
      rw [List.cons_append]
      conv_lhs => unfold loadCredentialList
      rw [hf]
      simp only [Bool.false_eq_true, if_false]
      exact ih (fun g hg => hpre g (List.mem_cons_of_mem f hg))

/-- C10: when the first ".cred"-suffixed entry of the listing has empty
content, loadCredentialID succeeds with the zero-length credential id
(no non-emptiness check exists), so DeriveHMACSecret takes the reuse
path — MakeCredential is never invoked — and every assertion request
carries the empty credential id. -/
theorem empty_record_reused (h : Hash32) (w : World) (device : DeviceInfo)
    (pin : String) (config : Configuration) (pre : List DirEntry) (e : DirEntry)
    (post : List DirEntry)
    (hentries : w.entries = .ok (pre ++ e :: post))
    (hpre : ∀ f ∈ pre, hasSuffix f.name ".cred" = false)
    (hname : hasSuffix e.name ".cred" = true)
    (hread : e.read = some "") :
    loadCredentialID w.entries = .ok [] ∧
    (DeriveHMACSecret h w device pin config).madeCredential = false ∧
    (∀ r ∈ (DeriveHMACSecret h w device pin config).assertionRequests,
        r.credentialIDs = [[]]) := by
  have hload : loadCredentialID w.entries = .ok [] := by
    rw [hentries]
    show loadCredentialList (pre ++ e :: post) = _
    rw [loadList_append_skip pre _ hpre]
    unfold loadCredentialList
    rw [hname, hread]
    rfl
  obtain ⟨hmade, hreq, -⟩ := reusePathFacts h w device pin config [] hload
  exact ⟨hload, hmade, hreq⟩

/-- A world whose only stored record is a ".cred" file with empty
content. -/
def emptyRecordWorld : World :=
  { connect := .ok ()
    entries := .ok [{ name := "a.cred", read := some "" }]
    makeCredential := fun _ => .error ()
    writeFile := fun _ => .ok ()
    assert := fun _ => .ok { hmacSecret := [2] } }

theorem empty_record_reused_witness :
    emptyRecordWorld.entries = .ok ([] ++ { name := "a.cred", read := some "" } :: []) ∧
    (∀ f ∈ ([] : List DirEntry), hasSuffix f.name ".cred" = false) ∧
    hasSuffix "a.cred" ".cred" = true ∧
    (loadCredentialID emptyRecordWorld.entries = .ok [] ∧
     (DeriveHMACSecret testHash emptyRecordWorld testDevice "1234"
        testConfig).madeCredential = false ∧
     (∀ r ∈ (DeriveHMACSecret testHash emptyRecordWorld testDevice "1234"
        testConfig).assertionRequests, r.credentialIDs = [[]])) :=
  ⟨rfl, by simp, rfl,
    empty_record_reused testHash emptyRecordWorld testDevice "1234" testConfig
      [] { name := "a.cred", read := some "" } [] rfl (by simp) rfl rfl⟩

/-- C4: the assertion request built by deriveSecret carries exactly the
relying-party id, hash(salt) as client data hash, the single-element
credential list, the pin, the HMAC-secret extension with that salt and
userPresence = true; and on transport success with a non-empty
HMACSecret, deriveSecret returns that value byte-for-byte. -/
theorem derive_assertion_exact (h : Hash32)
    (assert : AssertionRequest → Except Unit Assertion)
    (credentialID salt : List Nat) (pin : String) (config : Configuration)
    (a : Assertion)
    (hok : assert (assertionRequestFor h credentialID salt pin config) = .ok a)
    (hne : a.hmacSecret ≠ []) :
    (assertionRequestFor h credentialID salt pin config).rpID =
        config.relyingPartyID ∧
    (assertionRequestFor h credentialID salt pin config).clientDataHash =
        h.f salt ∧
    (assertionRequestFor h credentialID salt pin config).credentialIDs =
        [credentialID] ∧
    (assertionRequestFor h credentialID salt pin config).pin = pin ∧
    (assertionRequestFor h credentialID salt pin config).extensions =
        [.hmacSecretExt] ∧
    (assertionRequestFor h credentialID salt pin config).hmacSalt = salt ∧
    (assertionRequestFor h credentialID salt pin config).up = true ∧
    deriveSecret h assert credentialID salt pin config = .ok a.hmacSecret := by
  refine ⟨rfl, rfl, rfl, rfl, rfl, rfl, rfl, ?_⟩
  unfold deriveSecret
  rw [hok]
  simp [List.length_eq_zero, hne]

/-- A transport whose assertion always succeeds with secret [7]. -/
def okAssert : AssertionRequest → Except Unit Assertion :=
  fun _ => .ok { hmacSecret := [7] }

theorem derive_assertion_exact_witness :
    okAssert (assertionRequestFor testHash [3] [4] "1234" testConfig) =
        .ok { hmacSecret := [7] } ∧
    ({ hmacSecret := [7] } : Assertion).hmacSecret ≠ [] ∧
    ((assertionRequestFor testHash [3] [4] "1234" testConfig).rpID =
        testConfig.relyingPartyID ∧
     (assertionRequestFor testHash [3] [4] "1234" testConfig).clientDataHash =
        testHash.f [4] ∧
     (assertionRequestFor testHash [3] [4] "1234" testConfig).credentialIDs = [[3]] ∧
     (assertionRequestFor testHash [3] [4] "1234" testConfig).pin = "1234" ∧
     (assertionRequestFor testHash [3] [4] "1234" testConfig).extensions =
        [.hmacSecretExt] ∧
     (assertionRequestFor testHash [3] [4] "1234" testConfig).hmacSalt = [4] ∧
     (assertionRequestFor testHash [3] [4] "1234" testConfig).up = true ∧
     deriveSecret testHash okAssert [3] [4] "1234" testConfig =
        .ok ({ hmacSecret := [7] } : Assertion).hmacSecret) :=
  ⟨rfl, by decide,
    derive_assertion_exact testHash okAssert [3] [4] "1234" testConfig
      { hmacSecret := [7] } rfl (by decide)⟩

/-- C5: when the transport assertion succeeds but carries a zero-length
HMACSecret, deriveSecret fails with emptySecretReturned (for every
credential id and salt), and DeriveHMACSecret consequently returns an
error for that invocation. -/
theorem empty_secret_rejected (h : Hash32) (w : World) (device : DeviceInfo)
    (pin : String) (config : Configuration)
    (hconn : w.connect = .ok ())
    (hempty : ∀ r, w.assert r = .ok { hmacSecret := [] }) :
    (∀ credentialID salt,
        deriveSecret h w.assert credentialID salt pin config =
          .error .emptySecretReturned) ∧
    ∃ e, (DeriveHMACSecret h w device pin config).result = .error e := by
  have hds : ∀ cid salt,
      deriveSecret h w.assert cid salt pin config = .error .emptySecretReturned := by
    intro cid salt
    unfold deriveSecret
    rw [hempty]
    simp
  refine ⟨hds, ?_⟩
  unfold DeriveHMACSecret
  rw [hconn]
  simp only [generateDeterministicSalt]
  cases hl : loadCredentialID w.entries with
  | error le =>
      cases hm : w.makeCredential (makeCredentialRequestFor h pin config) with
      | error u => exact ⟨.createFailed, rfl⟩
      | ok att =>
          refine ⟨.deriveFailed .emptySecretReturned, ?_⟩
          simp [deriveStep45, hds]
  | ok id =>
      refine ⟨.deriveFailed .emptySecretReturned, ?_⟩
      simp [deriveStep45, hds]

/-- A world whose assertion always succeeds with an empty HMACSecret. -/
def emptySecretWorld : World :=
  { connect := .ok ()
    entries := .ok [{ name := "b.cred", read := some "AAAA" }]
    makeCredential := fun _ => .ok { credentialID := [3] }
    writeFile := fun _ => .ok ()
    assert := fun _ => .ok { hmacSecret := [] } }

theorem empty_secret_rejected_witness :
    emptySecretWorld.connect = .ok () ∧
    (∀ r, emptySecretWorld.assert r = .ok { hmacSecret := [] }) ∧
    ((∀ credentialID salt,
        deriveSecret testHash emptySecretWorld.assert credentialID salt "1234"
          testConfig = .error .emptySecretReturned) ∧
     ∃ e, (DeriveHMACSecret testHash emptySecretWorld testDevice "1234"
        testConfig).result = .error e) :=
  ⟨rfl, fun _ => rfl,
    empty_secret_rejected testHash emptySecretWorld testDevice "1234" testConfig
      rfl (fun _ => rfl)⟩

/-- C8: when no credential loads, creation succeeds, the save of the new
record fails, and the assertion succeeds with a non-empty secret,
DeriveHMACSecret only records a warning for the failed save and still
returns the secret derived with the freshly created credential. -/
theorem save_failure_only_warns (h : Hash32) (w : World) (device : DeviceInfo)
    (pin : String) (config : Configuration) (att : Attestation) (a : Assertion)
    (le : LoadErr) (se : Unit)
    (hconn : w.connect = .ok ())
    (hload : loadCredentialID w.entries = .error le)
    (hmk : w.makeCredential (makeCredentialRequestFor h pin config) = .ok att)
    (hsave : w.writeFile (saveWrite att.credentialID) = .error se)
    (hassert : w.assert (assertionRequestFor h att.credentialID
        (saltBytes h config.saltSize.toNat device.path config.relyingPartyID)
        pin config) = .ok a)
    (hne : a.hmacSecret ≠ []) :
    (DeriveHMACSecret h w device pin config).saveWarning = true ∧
    (DeriveHMACSecret h w device pin config).result =
      .ok { secret := a.hmacSecret
            salt := saltBytes h config.saltSize.toNat device.path
                      config.relyingPartyID
            credentialID := att.credentialID
            device := device
            relyingParty := config.relyingPartyID } := by
  unfold DeriveHMACSecret
  rw [hconn]
  simp only [generateDeterministicSalt, hload, hmk, hsave]
  unfold deriveStep45 deriveSecret
  rw [hassert]
  simp [List.length_eq_zero, hne]

/-- A world with no stored record, successful creation, a failing write
and a fixed assertion secret. -/
def failingSaveWorld : World :=
  { connect := .ok ()
    entries := .ok []
    makeCredential := fun _ => .ok { credentialID := [5] }
    writeFile := fun _ => .error ()
    assert := fun _ => .ok { hmacSecret := [9] } }

theorem save_failure_only_warns_witness :
    failingSaveWorld.connect = .ok () ∧
    loadCredentialID failingSaveWorld.entries = .error .notFound ∧
    failingSaveWorld.makeCredential
        (makeCredentialRequestFor testHash "1234" testConfig) =
      .ok { credentialID := [5] } ∧
    ((DeriveHMACSecret testHash failingSaveWorld testDevice "1234"
        testConfig).saveWarning = true ∧
     (DeriveHMACSecret testHash failingSaveWorld testDevice "1234"
        testConfig).result =
       .ok { secret := ({ hmacSecret := [9] } : Assertion).hmacSecret
             salt := saltBytes testHash testConfig.saltSize.toNat testDevice.path
                       testConfig.relyingPartyID
             credentialID := ({ credentialID := [5] } : Attestation).credentialID
             device := testDevice
             relyingParty := testConfig.relyingPartyID }) :=
  ⟨rfl, rfl, rfl,
    save_failure_only_warns testHash failingSaveWorld testDevice "1234" testConfig
      { credentialID := [5] } { hmacSecret := [9] } .notFound () rfl rfl rfl rfl
      rfl (by decide)⟩

end Fido2
